import Mathlib

/-!
Shallow embedding of `src/notebooks/inundation/utilities.py` (SECOORA
inundation notebook utilities): the longitude-wrapping helpers
`wrap_lon180` / `wrap_lon360`, the KDTree construction `make_tree`, and the
nearest-valid-water-point search `get_nearest_water`.

Modelling conventions:
* numpy float arrays become `List ℚ`; scalar float arithmetic becomes exact
  rational arithmetic.
* Masked / invalid entries of a cube's data (`ma.masked_invalid`) are
  modelled as `none : Option ℚ`.
* Euclidean distances are carried as *squared* distances (`ℚ` has no square
  root); every comparison the source makes on a distance `d` is translated
  to the equivalent comparison on `d^2` (for nonnegative thresholds), and a
  squared distance identifies the actual distance uniquely.
* scipy `KDTree.query` with `k` larger than the number `n` of points pads
  the result with distance `inf` and index `n`; the padding is modelled as
  `(none, n)` entries.
* numpy's float remainder `x % 360` is `x - 360 * floor (x / 360)`.
-/

/-- numpy float remainder by 360: result lies in `[0, 360)`. -/
def npMod360 (x : ℚ) : ℚ := x - 360 * (⌊x / 360⌋ : ℤ)

/-- Elementwise body of `wrap_lon360` (utilities.py lines 117-122):
`positive = lon > 0` is recorded before the remainder; afterwards entries
that reduced to `0` but were positive are set to `360`. -/
def wrap_lon360_scalar (x : ℚ) : ℚ :=
  let positive := 0 < x
  let m := npMod360 x
  if m = 0 ∧ positive then 360 else m

/-- The array form of `wrap_lon360` (elementwise). -/
def wrap_lon360 (lon : List ℚ) : List ℚ := lon.map wrap_lon360_scalar

/-- Elementwise body of `wrap_lon180` (utilities.py lines 110-114): the
masked gather/scatter `lon[angles] = wrap_lon360(lon[angles] + 180) - 180`
with `angles = (lon < -180) | (180 < lon)` acts elementwise, so it equals
this conditional. -/
def wrap_lon180_scalar (x : ℚ) : ℚ :=
  if x < -180 ∨ 180 < x then wrap_lon360_scalar (x + 180) - 180 else x

/-- The array form of `wrap_lon180` (elementwise). -/
def wrap_lon180 (lon : List ℚ) : List ℚ := lon.map wrap_lon180_scalar

/-- A coordinate array of an iris cube: 1-D (rectilinear axis or
unstructured node list) or 2-D (curvilinear mesh). -/
inductive Arr where
  | one : List ℚ → Arr
  | two : List (List ℚ) → Arr
deriving DecidableEq, Repr

/-- The numpy `ndim` of a coordinate array. -/
def Arr.ndim : Arr → Nat
  | .one _ => 1
  | .two _ => 2

/-- The numpy `ravel()` of a coordinate array. -/
def Arr.ravel : Arr → List ℚ
  | .one l => l
  | .two m => m.flatten

/-- Application of `wrap_lon180` to a coordinate array of either rank
(`np.atleast_1d` keeps the shape; the masked assignment is elementwise). -/
def wrapArr : Arr → Arr
  | .one l => .one (wrap_lon180 l)
  | .two m => .two (m.map wrap_lon180)

/-- The data payload of an iris cube, time axis first: 2-D `(time, cell)`
for unstructured models, 3-D `(time, row, col)` for structured models.
Entries are `Option ℚ`; `none` is a masked / invalid value. -/
inductive CubeData where
  | d2 : List (List (Option ℚ)) → CubeData
  | d3 : List (List (List (Option ℚ))) → CubeData
deriving DecidableEq, Repr

/-- The numpy rank `cube.ndim` of the data payload. -/
def CubeData.ndim : CubeData → Nat
  | .d2 _ => 2
  | .d3 _ => 3

/-- An iris cube as the embedded functions consume it: its X and Y
coordinate point arrays and its data. -/
structure Cube where
  xcoord : Arr
  ycoord : Arr
  data : CubeData
deriving DecidableEq, Repr

/-- The rank `cube.ndim` of a cube (its data's rank). -/
def Cube.ndim (c : Cube) : Nat := c.data.ndim

/-- Model of `np.meshgrid(lon, lat)`: first component repeats `lon` as each row,
second repeats each `lat` entry across a row; both have shape
`(len lat, len lon)`. -/
def meshgrid (lon lat : List ℚ) : List (List ℚ) × List (List ℚ) :=
  (lat.map (fun _ => lon), lat.map (fun y => lon.map (fun _ => y)))

/-- Embedding of `make_tree` (utilities.py lines 125-135): wrap the X coordinate into
the 180 convention; for structured models with 1-D lon/lat and a 3-D cube,
mesh them; build the KDTree over the zipped raveled coordinates.  The
KDTree is modelled by its point list, in construction order. -/
def make_tree (cube : Cube) : List (ℚ × ℚ) × Arr × Arr :=
  let lon := wrapArr cube.xcoord
  let lat := cube.ycoord
  match lon, lat, cube.ndim with
  | .one l, .one t, 3 =>
      let mg := meshgrid l t
      ((mg.1.flatten).zip mg.2.flatten, .two mg.1, .two mg.2)
  | a, b, _ => ((a.ravel).zip b.ravel, a, b)

/-- Squared Euclidean distance between two 2-D points. -/
def sqDist (a b : ℚ × ℚ) : ℚ := (a.1 - b.1) ^ 2 + (a.2 - b.2) ^ 2

/-- Comparison used to model the KDTree's ascending-distance output:
squared distance first, original point index breaking ties. -/
def candR (a b : ℚ × Nat) : Prop := a.1 < b.1 ∨ (a.1 = b.1 ∧ a.2 ≤ b.2)

instance candR.decRel : DecidableRel candR := fun _ _ =>
  inferInstanceAs (Decidable (_ ∨ _))

instance candR.isTrans : IsTrans (ℚ × Nat) candR where
  trans a b c hab hbc := by
    rcases hab with h1 | ⟨h1, h2⟩ <;> rcases hbc with h3 | ⟨h3, h4⟩
    · exact Or.inl (lt_trans h1 h3)
    · exact Or.inl (h3 ▸ h1)
    · exact Or.inl (h1 ▸ h3)
    · exact Or.inr ⟨h1.trans h3, le_trans h2 h4⟩

instance candR.isTotal : IsTotal (ℚ × Nat) candR where
  total a b := by
    rcases lt_trichotomy a.1 b.1 with h | h | h
    · exact Or.inl (Or.inl h)
    · rcases le_total a.2 b.2 with h2 | h2
      · exact Or.inl (Or.inr ⟨h, h2⟩)
      · exact Or.inr (Or.inr ⟨h.symm, h2⟩)
    · exact Or.inr (Or.inl h)

/-- The `(squared distance to the query, flat index)` pair of every tree
point, indices counted from `i0`. -/
def distsFrom (xy : ℚ × ℚ) (pts : List (ℚ × ℚ)) (i0 : Nat) : List (ℚ × Nat) :=
  match pts with
  | [] => []
  | p :: ps => (sqDist p xy, i0) :: distsFrom xy ps (i0 + 1)

/-- Model of `tree.query(np.array([xi, yi]).T, k=k)` for a scalar query point: the
`k` nearest tree points as `(squared distance, flat index)` pairs sorted by
ascending distance; when `k` exceeds the number of points, scipy pads with
distance `inf` and index `n`, modelled as `(none, n)`. -/
def treeQuery (pts : List (ℚ × ℚ)) (xy : ℚ × ℚ) (k : Nat) :
    List (Option ℚ × Nat) :=
  let ds := distsFrom xy pts 0
  let sorted := List.insertionSort candR ds
  (sorted.take k).map (fun p => (some p.1, p.2)) ++
    List.replicate (k - pts.length) (none, pts.length)

/-- One entry of the mask `distances <= max_dist`: `inf` (`none`) compares false;
for a finite distance `d ≥ 0`, `d ≤ m` iff `0 ≤ m ∧ d^2 ≤ m^2`. -/
def distLe (d : Option ℚ) (m : ℚ) : Bool :=
  match d with
  | none => false
  | some d2 => !decide (m < 0) && decide (d2 ≤ m ^ 2)

/-- The `mask = distances <= max_dist` filtering step
(utilities.py lines 153-157): the query result restricted to candidates
within `max_dist`. -/
def keptQuery (tree : List (ℚ × ℚ)) (xi yi : ℚ) (k : Nat) (maxDist : ℚ) :
    List (Option ℚ × Nat) :=
  (treeQuery tree (xi, yi) k).filter (fun p => distLe p.1 maxDist)

/-- Translation of flat cell indices to native cell coordinates
(utilities.py lines 158-163).  Unstructured model (1-D X, 2-D cube):
`i = j = indices`, so each flat index is duplicated into a pair.
Otherwise `np.unravel_index(indices, cube.coord(axis='X').shape)`:
for a 2-D X coordinate of shape `(r, c)` this is row/column division
(raising if an index is out of range, hence `none`); for a 1-D X
coordinate the shape is a 1-tuple, `unravel_index` yields a single array,
and the unpacking `i, j = ...` raises, hence `none`. -/
def cellCoords (cube : Cube) (indices : List Nat) : Option (List (Nat × Nat)) :=
  if cube.xcoord.ndim = 1 ∧ cube.ndim = 2 then
    some (indices.map (fun q => (q, q)))
  else
    match cube.xcoord with
    | .one _ => none
    | .two m =>
      let r := m.length
      let c := (m.headD []).length
      if indices.all (fun q => decide (q < r * c)) then
        some (indices.map (fun q => (q / c, q % c)))
      else none

/-- Model of `cube[(slice(None),) + idx]` followed by `.data`: the time series at
cell `idx`.  On a 2-D (unstructured) cube the tuple `(slice, i, j)` has
more keys than dimensions and indexing raises (`none`); on a 3-D cube it
selects `data[:, i, j]`, raising if `i` or `j` is out of range. -/
def extract : CubeData → Nat × Nat → Option (List (Option ℚ))
  | .d2 _, _ => none
  | .d3 frames, (i, j) =>
    if frames.all (fun fr => decide (i < fr.length) &&
        decide (j < (fr.getD i []).length)) then
      some (frames.map (fun fr => (fr.getD i []).getD j none))
    else none

/-- Model of `ma.masked_invalid(series.data).filled(fill_value=0)`: masked / invalid
entries become `0`. -/
def zeroFill (s : List (Option ℚ)) : List ℚ := s.map (fun v => v.getD 0)

/-- Population mean (numpy `mean`). -/
def npMean (arr : List ℚ) : ℚ := arr.sum / arr.length

/-- Population variance (numpy `std` squared). -/
def npVar (arr : List ℚ) : ℚ :=
  (arr.map (fun x => (x - npMean arr) ^ 2)).sum / arr.length

/-- The test `arr.std() >= min_var`: the std of an empty array is `nan` (compares
false); otherwise, since `std ≥ 0`, `std ≥ t` iff `t ≤ 0 ∨ std^2 ≥ t^2`,
and `std^2` is the variance. -/
def stdGe (arr : List ℚ) (t : ℚ) : Bool :=
  !arr.isEmpty && (decide (t ≤ 0) || decide (t ^ 2 ≤ npVar arr))

/-- Result triple `(series, dist, idx)` of `get_nearest_water`: the raw
series at the accepted cell, its squared distance, and its cell
coordinates; each `none` when the loop body never ran. -/
abbrev GnwResult :=
  Option (List (Option ℚ)) × Option ℚ × Option (Nat × Nat)

/-- The `for dist, idx in zip(distances, zip(i, j))` loop
(utilities.py lines 167-174): extract the series at each candidate
(propagating an indexing error as `none`), zero-fill a copy, and stop at
the first candidate whose std reaches `min_var`; the loop variables keep
their last values when the loop finishes without a break. -/
def searchLoop (data : CubeData) (minVar : ℚ) (st : GnwResult) :
    List (ℚ × (Nat × Nat)) → Option GnwResult
  | [] => some st
  | (d, ij) :: rest =>
    match extract data ij with
    | none => none
    | some s =>
      if stdGe (zeroFill s) minVar then some (some s, some d, some ij)
      else searchLoop data minVar (some s, some d, some ij) rest

/-- The `(dist, idx)` pairs walked by the search loop: surviving distances
zipped with the translated cell coordinates (`zip(distances, zip(i, j))`);
`none` when the coordinate translation raises. -/
def gnwPairs (cube : Cube) (tree : List (ℚ × ℚ)) (xi yi : ℚ) (k : Nat)
    (maxDist : ℚ) : Option (List (ℚ × (Nat × Nat))) :=
  let kept := keptQuery tree xi yi k maxDist
  (cellCoords cube (kept.map (fun p => p.2))).map
    (fun ij => (kept.filterMap (fun p => p.1)).zip ij)

/-- Embedding of `get_nearest_water` (utilities.py lines 138-174).  The
`if mask is None` test in the source is identically false (`mask` is an
ndarray, never `None`), so the "No data found for (xi,yi) using max_dist"
ValueError is unreachable and does not appear here.  Indexing errors
raised while translating coordinates or slicing the cube surface as
`.error "IndexError"`. -/
def get_nearest_water (cube : Cube) (tree : List (ℚ × ℚ)) (xi yi : ℚ)
    (k : Nat := 10) (maxDist : ℚ := 4/100) (minVar : ℚ := 1/100) :
    Except String GnwResult :=
  let q := treeQuery tree (xi, yi) k
  if q.isEmpty then .error "No data found."
  else
    match gnwPairs cube tree xi yi k maxDist with
    | none => .error "IndexError"
    | some pairs =>
      match searchLoop cube.data minVar (none, none, none) pairs with
      | none => .error "IndexError"
      | some res => .ok res

/-- A heap of numpy array buffers; an address is its allocation rank.
Used to make the copy-versus-alias behaviour of the wrap helpers
statable. -/
structure Heap where
  bufs : List (List ℚ)
deriving DecidableEq, Repr

/-- Contents of the buffer at address `a`. -/
def Heap.read (h : Heap) (a : Nat) : List ℚ := (h.bufs[a]?).getD []

/-- Allocate a fresh buffer holding `v`; returns the new heap and the
fresh address. -/
def Heap.alloc (h : Heap) (v : List ℚ) : Heap × Nat :=
  (⟨h.bufs ++ [v]⟩, h.bufs.length)

/-- Overwrite the buffer at address `a`. -/
def Heap.write (h : Heap) (a : Nat) (v : List ℚ) : Heap :=
  ⟨h.bufs.set a v⟩

/-- The function `wrap_lon180` with array aliasing explicit: the argument is a heap
address; `np.atleast_1d(lon).copy()` allocates a fresh buffer, and the
masked assignment `lon[angles] = ...` writes only that fresh buffer.
Returns the final heap and the address of the returned array. -/
def wrap_lon180_heap (h : Heap) (lon : Nat) : Heap × Nat :=
  let al := h.alloc (h.read lon)
  let h1 := al.1
  let b := al.2
  (h1.write b (wrap_lon180 (h1.read b)), b)

/-- The function `wrap_lon360` with array aliasing explicit, as in `wrap_lon180_heap`:
the copy is an allocation and the in-place updates hit only the copy. -/
def wrap_lon360_heap (h : Heap) (lon : Nat) : Heap × Nat :=
  let al := h.alloc (h.read lon)
  let h1 := al.1
  let b := al.2
  (h1.write b (wrap_lon360 (h1.read b)), b)

/-! ### Properties of the longitude wrappers -/

theorem npMod360_nonneg (y : ℚ) : 0 ≤ npMod360 y := by
  have h := Int.floor_le (y / 360)
  unfold npMod360
  nlinarith [h]

theorem npMod360_lt (y : ℚ) : npMod360 y < 360 := by
  have h := Int.lt_floor_add_one (y / 360)
  unfold npMod360
  nlinarith [h]


theorem wrap_lon360_scalar_bounds (y : ℚ) :
    0 ≤ wrap_lon360_scalar y ∧ wrap_lon360_scalar y ≤ 360 := by
  simp only [wrap_lon360_scalar]
  split_ifs with h
  · exact ⟨by norm_num, le_refl 360⟩
  · exact ⟨npMod360_nonneg y, le_of_lt (npMod360_lt y)⟩

theorem wrap_lon180_scalar_mem (x : ℚ) :
    -180 ≤ wrap_lon180_scalar x ∧ wrap_lon180_scalar x ≤ 180 := by
  simp only [wrap_lon180_scalar]
  split_ifs with h
  · have hb := wrap_lon360_scalar_bounds (x + 180)
    exact ⟨by linarith [hb.1], by linarith [hb.2]⟩
  · push_neg at h
    exact ⟨h.1, h.2⟩

theorem wrap_lon180_scalar_id (x : ℚ) (h1 : -180 ≤ x) (h2 : x ≤ 180) :
    wrap_lon180_scalar x = x := by
  simp only [wrap_lon180_scalar]
  rw [if_neg]
  push_neg
  exact ⟨h1, h2⟩

theorem wrap_lon180_scalar_idem (x : ℚ) :
    wrap_lon180_scalar (wrap_lon180_scalar x) = wrap_lon180_scalar x :=
  wrap_lon180_scalar_id _ (wrap_lon180_scalar_mem x).1 (wrap_lon180_scalar_mem x).2

theorem mem_wrap_lon180 (l : List ℚ) (x : ℚ) (hx : x ∈ wrap_lon180 l) :
    ∃ y, x = wrap_lon180_scalar y := by
  rw [wrap_lon180, List.mem_map] at hx
  obtain ⟨y, _, h⟩ := hx
  exact ⟨y, h.symm⟩

theorem mem_wrapArr_ravel (a : Arr) (x : ℚ) (hx : x ∈ (wrapArr a).ravel) :
    ∃ y, x = wrap_lon180_scalar y := by
  rcases a with l | m
  · exact mem_wrap_lon180 l x hx
  · rw [wrapArr, Arr.ravel, List.mem_flatten] at hx
    obtain ⟨row, hrow, hmem⟩ := hx
    rw [List.mem_map] at hrow
    obtain ⟨r0, _, hr0⟩ := hrow
    exact mem_wrap_lon180 r0 x (hr0 ▸ hmem)

/-- Every longitude stored in a tree built by `make_tree` comes from the
wrapped X coordinate array. -/
theorem make_tree_lon_mem (cube : Cube) (px py : ℚ)
    (hp : (px, py) ∈ (make_tree cube).1) :
    px ∈ (wrapArr cube.xcoord).ravel := by
  obtain ⟨x, yc, d⟩ := cube
  rcases x with l | m <;> rcases yc with t | mt <;> rcases d with f2 | f3 <;>
      simp only [make_tree, Cube.ndim, CubeData.ndim, wrapArr, Arr.ravel] at hp ⊢ <;>
      first
        | exact (List.of_mem_zip hp).1
        | (have h1 := (List.of_mem_zip hp).1
           rw [List.mem_flatten] at h1
           obtain ⟨row, hrow, hmem⟩ := h1
           simp only [meshgrid, List.mem_map] at hrow
           obtain ⟨-, -, hr⟩ := hrow
           rw [← hr] at hmem
           exact hmem)

theorem len_flat_rows {α β : Type} (t : List α) (f : α → List β) (n : Nat)
    (hf : ∀ a ∈ t, (f a).length = n) : ((t.map f).flatten).length = t.length * n := by
  induction t with
  | nil => simp
  | cons a t ih =>
    simp only [List.map_cons, List.flatten_cons, List.length_append, List.length_cons]
    rw [hf a (by simp), ih (fun b hb => hf b (by simp [hb]))]
    ring

/-- C9: normalizing the grid longitudes `[359, 1, 181]` with `wrap_lon180`
yields exactly `[-1, 1, -179]`. -/
theorem wrap_lon180_example_359_1_181 :
    wrap_lon180 [359, 1, 181] = [-1, 1, -179] := by
  norm_num [wrap_lon180, wrap_lon180_scalar, wrap_lon360_scalar, npMod360]

/-- C5 fails as stated: `wrap_lon180` leaves `180` unchanged (its wrap
condition is the strict `180 < lon`), so the output `180` is not in the
half-open interval `[-180, 180)`, and a tree built over the grid
longitude `180` stores the longitude `180`. -/
theorem wrap_lon180_at_180_not_lt :
    wrap_lon180_scalar 180 = 180 ∧ ¬ wrap_lon180_scalar 180 < 180 ∧
      (make_tree ⟨.one [180], .one [0], .d3 []⟩).1 = [(180, 0)] := by
  norm_num [make_tree, wrapArr, wrap_lon180, wrap_lon180_scalar, meshgrid,
    Cube.ndim, CubeData.ndim]

/-- C5 (amended): every value produced by `wrap_lon180` lies in the closed
interval `[-180, 180]`, and hence so does the longitude of every
coordinate stored in the index built by `make_tree`. -/
theorem wrap_lon180_range :
    (∀ x : ℚ, -180 ≤ wrap_lon180_scalar x ∧ wrap_lon180_scalar x ≤ 180) ∧
    (∀ (cube : Cube) (px py : ℚ), (px, py) ∈ (make_tree cube).1 →
      -180 ≤ px ∧ px ≤ 180) := by
  constructor
  · exact wrap_lon180_scalar_mem
  · intro cube px py hp
    obtain ⟨y, hy⟩ := mem_wrapArr_ravel _ px (make_tree_lon_mem cube px py hp)
    rw [hy]
    exact wrap_lon180_scalar_mem y

/-- Witness for the amended C5 at the grid longitude `359`, which the tree
stores as `-1`. -/
theorem wrap_lon180_range_witness :
    -180 ≤ (-1 : ℚ) ∧ (-1 : ℚ) ≤ 180 :=
  wrap_lon180_range.2 ⟨.one [359], .one [7], .d3 []⟩ (-1) 7 (by
    norm_num [make_tree, wrapArr, wrap_lon180, wrap_lon180_scalar,
      wrap_lon360_scalar, npMod360, meshgrid, Cube.ndim, CubeData.ndim])

/-- C6: `wrap_lon180` is idempotent, and on longitudes already in
`[-180, 180)` it is the identity. -/
theorem wrap_lon180_idem_and_id :
    (∀ lon : List ℚ, wrap_lon180 (wrap_lon180 lon) = wrap_lon180 lon) ∧
    (∀ x : ℚ, -180 ≤ x → x < 180 → wrap_lon180_scalar x = x) := by
  constructor
  · intro lon
    rw [wrap_lon180, wrap_lon180, List.map_map]
    exact List.map_congr_left (fun a _ => wrap_lon180_scalar_idem a)
  · intro x h1 h2
    exact wrap_lon180_scalar_id x h1 (le_of_lt h2)

/-- Witness for C6 at the longitude `7`. -/
theorem wrap_lon180_idem_and_id_witness : wrap_lon180_scalar 7 = 7 :=
  wrap_lon180_idem_and_id.2 7 (by norm_num) (by norm_num)

/-- C4: for a structured grid with 1-D longitude and latitude coordinate
arrays (and a 3-D cube), the KDTree built by `make_tree` contains exactly
`len lon * len lat` points. -/
theorem make_tree_structured_count (cube : Cube) (l t : List ℚ)
    (hx : cube.xcoord = .one l) (hy : cube.ycoord = .one t)
    (h3 : cube.ndim = 3) :
    (make_tree cube).1.length = l.length * t.length := by
  obtain ⟨x, yc, d⟩ := cube
  simp only at hx hy h3
  subst hx
  subst hy
  rcases d with f2 | f3
  · simp [Cube.ndim, CubeData.ndim] at h3
  · simp only [make_tree, wrapArr, Cube.ndim, CubeData.ndim, meshgrid]
    rw [List.length_zip]
    rw [len_flat_rows t (fun _ => wrap_lon180 l) l.length
      (by intro a _; simp [wrap_lon180])]
    rw [len_flat_rows t (fun y => (wrap_lon180 l).map (fun _ => y)) l.length
      (by intro a _; simp [wrap_lon180])]
    simp [Nat.mul_comm]

/-- Witness for C4: a 3-longitude by 2-latitude structured grid yields a
tree of 6 points. -/
theorem make_tree_structured_count_witness :
    (make_tree ⟨.one [0, 10, 20], .one [5, 15], .d3 []⟩).1.length = 3 * 2 :=
  make_tree_structured_count _ [0, 10, 20] [5, 15] rfl rfl rfl

/-! ### Behaviour of `get_nearest_water` -/

/-- C1 fails on the code: with a single grid point at the origin, a query
point at distance `1/2`, and `max_dist = 0`, the query returns one
candidate, no candidate is within `max_dist`, yet the function returns
the `(None, None, None)` triple instead of raising: the source's
`if mask is None` guard compares an ndarray with `None` and never fires,
so the "no data found within max distance" ValueError is unreachable. -/
theorem gnw_empty_mask_returns_none_triple :
    get_nearest_water ⟨.two [[0]], .two [[0]], .d3 [[[some 0]]]⟩
      [(0, 0)] (1/2) 0 1 0 (1/100) = .ok (none, none, none) := by
  norm_num [get_nearest_water, gnwPairs, keptQuery, treeQuery, distsFrom, sqDist,
    distLe, cellCoords, searchLoop, List.insertionSort, List.orderedInsert,
    Cube.ndim, CubeData.ndim, Arr.ndim, candR]

/-- C7 fails on the code for unstructured grids: a surviving flat cell
identifier `q` is not used directly as the native coordinate — the
assignment `i = j = indices` duplicates it into the pair `(q, q)`, and
slicing the 2-D cube with the three keys `(slice(None), q, q)` raises
IndexError, as evaluated here on a 2-point unstructured grid whose
nearest point is at distance 0. -/
theorem gnw_unstructured_duplicated_index :
    cellCoords ⟨.one [0, 1], .one [0, 0],
        .d2 [[some 0, some 1], [some 2, some 3]]⟩ [1] = some [(1, 1)] ∧
    get_nearest_water ⟨.one [0, 1], .one [0, 0],
        .d2 [[some 0, some 1], [some 2, some 3]]⟩
      [(0, 0), (1, 0)] 0 0 2 1 (1/100) = .error "IndexError" := by
  constructor
  · norm_num [cellCoords, Cube.ndim, CubeData.ndim, Arr.ndim]
  · norm_num [get_nearest_water, gnwPairs, keptQuery, treeQuery, distsFrom, sqDist,
      distLe, cellCoords, searchLoop, extract, zeroFill, stdGe, npVar, npMean,
      List.insertionSort, List.orderedInsert, Cube.ndim, CubeData.ndim,
      Arr.ndim, candR]

/-- When every candidate's zero-filled series fails the variance test, the
search loop completes and the loop variables keep the last candidate's
values. -/
theorem searchLoop_last (data : CubeData) (minVar : ℚ) :
    ∀ (cands : List (ℚ × (Nat × Nat))) (st : GnwResult) (hne : cands ≠ [])
      (hfail : ∀ c ∈ cands, ∃ s, extract data c.2 = some s ∧
        stdGe (zeroFill s) minVar = false),
      ∃ s, extract data (cands.getLast hne).2 = some s ∧
        searchLoop data minVar st cands =
          some (some s, some (cands.getLast hne).1, some (cands.getLast hne).2)
  | [], _, hne, _ => absurd rfl hne
  | [⟨cd, cij⟩], st, _, hfail => by
      obtain ⟨s, hs, hstd⟩ := hfail (cd, cij) (by simp)
      refine ⟨s, by simpa using hs, ?_⟩
      simp [searchLoop, hs, hstd]
  | ⟨cd, cij⟩ :: c2 :: rest, st, _, hfail => by
      obtain ⟨s, hs, hstd⟩ := hfail (cd, cij) (by simp)
      obtain ⟨s2, hs2, hloop⟩ := searchLoop_last data minVar (c2 :: rest)
        (some s, some cd, some cij) (by simp)
        (fun d hd => hfail d (by simp [hd]))
      refine ⟨s2, ?_, ?_⟩
      · rw [List.getLast_cons]
        exact hs2
      · rw [show searchLoop data minVar st ((cd, cij) :: c2 :: rest)
              = searchLoop data minVar (some s, some cd, some cij) (c2 :: rest) by
            simp [searchLoop, hs, hstd]]
        rw [hloop]
        conv_rhs => rw [List.getLast_cons (List.cons_ne_nil c2 rest)]

/-- C2: if the surviving candidate list is non-empty and no candidate's
zero-filled series reaches `min_var`, `get_nearest_water` does not fail:
it returns the last-examined (farthest) candidate's series, distance and
cell coordinate. -/
theorem gnw_all_below_var_returns_last (cube : Cube) (tree : List (ℚ × ℚ))
    (xi yi : ℚ) (k : Nat) (maxDist minVar : ℚ)
    (cands : List (ℚ × (Nat × Nat)))
    (hp : gnwPairs cube tree xi yi k maxDist = some cands) (hne : cands ≠ [])
    (hfail : ∀ c ∈ cands, ∃ s, extract cube.data c.2 = some s ∧
      stdGe (zeroFill s) minVar = false) :
    ∃ s, extract cube.data (cands.getLast hne).2 = some s ∧
      get_nearest_water cube tree xi yi k maxDist minVar =
        .ok (some s, some (cands.getLast hne).1, some (cands.getLast hne).2) := by
  obtain ⟨s, hs, hloop⟩ := searchLoop_last cube.data minVar cands
    (none, none, none) hne hfail
  refine ⟨s, hs, ?_⟩
  have hkept : keptQuery tree xi yi k maxDist ≠ [] := by
    intro h0
    apply hne
    simp only [gnwPairs, h0, List.map_nil, List.filterMap_nil, List.zip_nil_left,
      Option.map_eq_some'] at hp
    obtain ⟨ij, -, hc⟩ := hp
    exact hc.symm
  have htq : treeQuery tree (xi, yi) k ≠ [] := by
    intro h0
    apply hkept
    rw [keptQuery, h0]
    rfl
  have hq : (treeQuery tree (xi, yi) k).isEmpty = false := by
    cases h : treeQuery tree (xi, yi) k
    · exact absurd h htq
    · rfl
  simp only [get_nearest_water, hq, Bool.false_eq_true, if_false, hp, hloop]

/-- Witness for C2: three surviving candidates whose series are all
constant (standard deviation 0 < min_var); the farthest one, at squared
distance 4 and cell (0, 2), is returned. -/
theorem gnw_all_below_var_returns_last_witness :
    ∃ s, extract (CubeData.d3 [[[some 1, some 2, some 3]],
        [[some 1, some 2, some 3]]]) (0, 2) = some s ∧
      get_nearest_water ⟨.two [[0, 1, 2]], .two [[0, 0, 0]],
          .d3 [[[some 1, some 2, some 3]], [[some 1, some 2, some 3]]]⟩
        [(0, 0), (1, 0), (2, 0)] 0 0 3 10 (1/100) =
        .ok (some s, some 4, some (0, 2)) := by
  have h := gnw_all_below_var_returns_last
    ⟨.two [[0, 1, 2]], .two [[0, 0, 0]],
      .d3 [[[some 1, some 2, some 3]], [[some 1, some 2, some 3]]]⟩
    [(0, 0), (1, 0), (2, 0)] 0 0 3 10 (1/100)
    [(0, (0, 0)), (1, (0, 1)), (4, (0, 2))]
    (by norm_num [gnwPairs, keptQuery, treeQuery, distsFrom, sqDist, distLe,
      cellCoords, candR, List.insertionSort, List.orderedInsert,
      List.filterMap_cons, List.zip_cons_cons,
      Cube.ndim, CubeData.ndim, Arr.ndim])
    (by simp)
    (by
      intro c hc
      fin_cases hc
      · exact ⟨[some 1, some 1], rfl, by
          norm_num [stdGe, zeroFill, npVar, npMean]⟩
      · exact ⟨[some 2, some 2], rfl, by
          norm_num [stdGe, zeroFill, npVar, npMean]⟩
      · exact ⟨[some 3, some 3], rfl, by
          norm_num [stdGe, zeroFill, npVar, npMean]⟩)
  exact h

theorem candR_fst_le {a b : ℚ × Nat} (h : candR a b) : a.1 ≤ b.1 := by
  rcases h with h | ⟨h, -⟩
  · exact le_of_lt h
  · exact le_of_eq h

theorem treeQuery_dists_eq (pts : List (ℚ × ℚ)) (xy : ℚ × ℚ) (k : Nat) :
    (treeQuery pts xy k).filterMap (fun p => p.1)
      = ((List.insertionSort candR (distsFrom xy pts 0)).take k).map
          (fun p => p.1) := by
  simp only [treeQuery, List.filterMap_append, List.filterMap_map,
    List.filterMap_replicate]
  rw [show ((fun p : Option ℚ × Nat => p.1) ∘ (fun p : ℚ × Nat => (some p.1, p.2)))
      = some ∘ (fun p : ℚ × Nat => p.1) from rfl]
  rw [List.filterMap_eq_map]
  simp

/-- The distances of the surviving candidates form an ascending list. -/
theorem keptQuery_dists_sorted (tree : List (ℚ × ℚ)) (xi yi : ℚ) (k : Nat)
    (maxDist : ℚ) :
    ((keptQuery tree xi yi k maxDist).filterMap (fun p => p.1)).Pairwise
      (· ≤ ·) := by
  have hsub : ((keptQuery tree xi yi k maxDist).filterMap
        (fun p => p.1)).Sublist
      ((treeQuery tree (xi, yi) k).filterMap (fun p => p.1)) :=
    List.Sublist.filterMap _ (List.filter_sublist _)
  refine List.Pairwise.sublist hsub ?_
  rw [treeQuery_dists_eq]
  refine List.Pairwise.map _ (fun a b h => candR_fst_le h) ?_
  refine List.Pairwise.sublist (List.take_sublist _ _) ?_
  exact List.sorted_insertionSort candR _

/-- The search loop stops at the first candidate whose zero-filled series
passes the variance test and returns its triple. -/
theorem searchLoop_first_pass (data : CubeData) (minVar : ℚ) :
    ∀ (pre : List (ℚ × (Nat × Nat))) (st : GnwResult) (c : ℚ × (Nat × Nat))
      (post : List (ℚ × (Nat × Nat))) (s : List (Option ℚ)),
      (∀ d ∈ pre, ∃ sd, extract data d.2 = some sd ∧
        stdGe (zeroFill sd) minVar = false) →
      extract data c.2 = some s → stdGe (zeroFill s) minVar = true →
      searchLoop data minVar st (pre ++ c :: post) =
        some (some s, some c.1, some c.2)
  | [], st, ⟨cd, cij⟩, post, s, _, hs, hstd => by
      simp [searchLoop, hs, hstd]
  | ⟨dd, dij⟩ :: pre, st, c, post, s, hpre, hs, hstd => by
      obtain ⟨sd, hsd, hsdf⟩ := hpre (dd, dij) (by simp)
      rw [List.cons_append]
      rw [show searchLoop data minVar st ((dd, dij) :: (pre ++ c :: post))
            = searchLoop data minVar (some sd, some dd, some dij)
                (pre ++ c :: post) by
          simp [searchLoop, hsd, hsdf]]
      exact searchLoop_first_pass data minVar pre
        (some sd, some dd, some dij) c post s
        (fun d hd => hpre d (by simp [hd])) hs hstd

/-- C3: the surviving candidates are walked in ascending distance order
(their distance list is sorted), each extracted series is zero-filled for
the variance test, and the first candidate whose zero-filled series has
standard deviation at or above `min_var` is returned; concretely, with
three candidates at squared distances 0, 1, 4 of which only the farthest
varies, the farthest is returned with its squared distance 4 and its cell
coordinate (0, 2). -/
theorem gnw_first_valid_candidate :
    (∀ (tree : List (ℚ × ℚ)) (xi yi : ℚ) (k : Nat) (maxDist : ℚ),
      ((keptQuery tree xi yi k maxDist).filterMap (fun p => p.1)).Pairwise
        (· ≤ ·)) ∧
    (∀ (data : CubeData) (minVar : ℚ) (st : GnwResult)
      (pre : List (ℚ × (Nat × Nat))) (c : ℚ × (Nat × Nat))
      (post : List (ℚ × (Nat × Nat))) (s : List (Option ℚ)),
      (∀ d ∈ pre, ∃ sd, extract data d.2 = some sd ∧
        stdGe (zeroFill sd) minVar = false) →
      extract data c.2 = some s → stdGe (zeroFill s) minVar = true →
      searchLoop data minVar st (pre ++ c :: post) =
        some (some s, some c.1, some c.2)) ∧
    get_nearest_water ⟨.two [[0, 1, 2]], .two [[0, 0, 0]],
        .d3 [[[some 0, some 0, some 0]], [[some 0, some 0, some 5]]]⟩
      [(0, 0), (1, 0), (2, 0)] 0 0 3 10 (1/100) =
      .ok (some [some 0, some 5], some 4, some (0, 2)) := by
  refine ⟨keptQuery_dists_sorted,
    fun data minVar st pre c post s h1 h2 h3 =>
      searchLoop_first_pass data minVar pre st c post s h1 h2 h3, ?_⟩
  norm_num [get_nearest_water, gnwPairs, keptQuery, treeQuery, distsFrom, sqDist,
    distLe, cellCoords, searchLoop, extract, zeroFill, stdGe, npVar, npMean,
    List.insertionSort, List.orderedInsert, List.filterMap_cons,
    List.zip_cons_cons, Cube.ndim, CubeData.ndim, Arr.ndim, candR]

/-- Witness for C3: one failing nearer candidate, then a passing one; the
loop returns the passing candidate's series, distance and coordinates. -/
theorem gnw_first_valid_candidate_witness :
    searchLoop (CubeData.d3 [[[some 0, some 0]], [[some 0, some 5]]]) (1/100)
      (none, none, none) [(0, (0, 0)), (1, (0, 1))] =
      some (some [some 0, some 5], some 1, some (0, 1)) := by
  have h := gnw_first_valid_candidate.2.1
    (CubeData.d3 [[[some 0, some 0]], [[some 0, some 5]]]) (1/100)
    (none, none, none) [((0 : ℚ), ((0 : Nat), (0 : Nat)))]
    ((1 : ℚ), ((0 : Nat), (1 : Nat))) [] [some 0, some 5]
    (by
      intro d hd
      simp only [List.mem_singleton] at hd
      subst hd
      exact ⟨[some 0, some 0], rfl, by
        norm_num [stdGe, zeroFill, npVar, npMean]⟩)
    rfl
    (by norm_num [stdGe, zeroFill, npVar, npMean])
  simpa using h

theorem distsFrom_length (xy : ℚ × ℚ) (pts : List (ℚ × ℚ)) (i0 : Nat) :
    (distsFrom xy pts i0).length = pts.length := by
  induction pts generalizing i0 with
  | nil => rfl
  | cons p ps ih => simp [distsFrom, ih]

/-- scipy's query always returns `k` entries (padding past the number of
points). -/
theorem treeQuery_length (pts : List (ℚ × ℚ)) (xy : ℚ × ℚ) (k : Nat) :
    (treeQuery pts xy k).length = k := by
  simp [treeQuery, List.length_take, List.length_insertionSort,
    distsFrom_length]
  omega

theorem treeQuery_big_k (pts : List (ℚ × ℚ)) (xy : ℚ × ℚ) {k : Nat}
    (h : pts.length ≤ k) :
    treeQuery pts xy k
      = (List.insertionSort candR (distsFrom xy pts 0)).map
          (fun p => (some p.1, p.2)) ++
        List.replicate (k - pts.length) (none, pts.length) := by
  rw [treeQuery]
  rw [List.take_of_length_le
    (by rw [List.length_insertionSort, distsFrom_length]; exact h)]

/-- Enlarging `k` past the number of points does not change the surviving
candidates: the padded entries have infinite distance and are masked out. -/
theorem keptQuery_stable (tree : List (ℚ × ℚ)) (xi yi maxDist : ℚ) {k : Nat}
    (h : tree.length ≤ k) :
    keptQuery tree xi yi k maxDist
      = keptQuery tree xi yi tree.length maxDist := by
  rw [keptQuery, keptQuery, treeQuery_big_k _ _ h,
    treeQuery_big_k _ _ (le_refl _)]
  rw [List.filter_append, List.filter_append]
  rw [List.filter_replicate, List.filter_replicate]
  simp [distLe]

/-- C8: querying with `k` larger than the number `n` of grid points does
not error out: at most `n` usable candidates survive the distance mask,
and `get_nearest_water` returns exactly what the `k = n` query returns. -/
theorem gnw_large_k (cube : Cube) (tree : List (ℚ × ℚ)) (xi yi : ℚ)
    (k : Nat) (maxDist minVar : ℚ) (hk : tree.length < k) :
    (keptQuery tree xi yi k maxDist).length ≤ tree.length ∧
    (1 ≤ tree.length →
      get_nearest_water cube tree xi yi k maxDist minVar =
        get_nearest_water cube tree xi yi tree.length maxDist minVar) := by
  have hle := le_of_lt hk
  constructor
  · rw [keptQuery_stable tree xi yi maxDist hle, keptQuery]
    calc (List.filter (fun p => distLe p.1 maxDist)
          (treeQuery tree (xi, yi) tree.length)).length
        ≤ (treeQuery tree (xi, yi) tree.length).length :=
          List.length_filter_le _ _
      _ = tree.length := treeQuery_length _ _ _
  · intro h1
    have hq1 : (treeQuery tree (xi, yi) k).isEmpty = false := by
      cases h : treeQuery tree (xi, yi) k
      · have hlen := treeQuery_length tree (xi, yi) k
        rw [h] at hlen
        simp at hlen
        omega
      · rfl
    have hq2 : (treeQuery tree (xi, yi) tree.length).isEmpty = false := by
      cases h : treeQuery tree (xi, yi) tree.length
      · have hlen := treeQuery_length tree (xi, yi) tree.length
        rw [h] at hlen
        simp at hlen
        omega
      · rfl
    have hgp : gnwPairs cube tree xi yi k maxDist
        = gnwPairs cube tree xi yi tree.length maxDist := by
      rw [gnwPairs, gnwPairs, keptQuery_stable tree xi yi maxDist hle]
    simp only [get_nearest_water, hq1, hq2, Bool.false_eq_true, if_false, hgp]

/-- Witness for C8: a single-point grid queried with `k = 2`. -/
theorem gnw_large_k_witness :
    (keptQuery [((0 : ℚ), (0 : ℚ))] 0 0 2 1).length ≤ 1 ∧
      get_nearest_water ⟨.two [[0]], .two [[0]], .d3 [[[some 0]]]⟩
          [(0, 0)] 0 0 2 1 (1/100) =
        get_nearest_water ⟨.two [[0]], .two [[0]], .d3 [[[some 0]]]⟩
          [(0, 0)] 0 0 1 1 (1/100) :=
  ⟨(gnw_large_k ⟨.two [[0]], .two [[0]], .d3 [[[some 0]]]⟩ [(0, 0)] 0 0 2 1
      (1/100) (by norm_num)).1,
   (gnw_large_k ⟨.two [[0]], .two [[0]], .d3 [[[some 0]]]⟩ [(0, 0)] 0 0 2 1
      (1/100) (by norm_num)).2 (by norm_num)⟩

/-! ### The wrap helpers do not mutate their argument -/

/-- C10: `wrap_lon180` and `wrap_lon360` copy their input
(`np.atleast_1d(lon).copy()`) and the masked in-place assignments touch
only that copy: after the call the caller's buffer still holds its
original values, the returned array is at a fresh address, and it holds
the wrapped values. -/
theorem wrap_heap_copies (h : Heap) (a : Nat) (ha : a < h.bufs.length) :
    ((wrap_lon180_heap h a).1.read a = h.read a ∧
      (wrap_lon180_heap h a).2 ≠ a ∧
      (wrap_lon180_heap h a).1.read (wrap_lon180_heap h a).2 =
        wrap_lon180 (h.read a)) ∧
    ((wrap_lon360_heap h a).1.read a = h.read a ∧
      (wrap_lon360_heap h a).2 ≠ a ∧
      (wrap_lon360_heap h a).1.read (wrap_lon360_heap h a).2 =
        wrap_lon360 (h.read a)) := by
  have hne : h.bufs.length ≠ a := Nat.ne_of_gt ha
  constructor
  · refine ⟨?_, hne, ?_⟩
    · simp only [wrap_lon180_heap, Heap.alloc, Heap.write, Heap.read]
      rw [List.getElem?_set_ne hne, List.getElem?_append_left ha]
    · simp only [wrap_lon180_heap, Heap.alloc, Heap.write, Heap.read]
      rw [List.getElem?_concat_length]
      simp only [Option.getD_some]
      rw [List.getElem?_set_self (by rw [List.length_append]; simp)]
      simp only [Option.getD_some]
  · refine ⟨?_, hne, ?_⟩
    · simp only [wrap_lon360_heap, Heap.alloc, Heap.write, Heap.read]
      rw [List.getElem?_set_ne hne, List.getElem?_append_left ha]
    · simp only [wrap_lon360_heap, Heap.alloc, Heap.write, Heap.read]
      rw [List.getElem?_concat_length]
      simp only [Option.getD_some]
      rw [List.getElem?_set_self (by rw [List.length_append]; simp)]
      simp only [Option.getD_some]

/-- Witness for C10 on a one-buffer heap holding `[200]`. -/
theorem wrap_heap_copies_witness :
    (wrap_lon180_heap ⟨[[200]]⟩ 0).1.read 0 = Heap.read ⟨[[200]]⟩ 0 ∧
      (wrap_lon360_heap ⟨[[200]]⟩ 0).1.read 0 = Heap.read ⟨[[200]]⟩ 0 :=
  ⟨((wrap_heap_copies ⟨[[200]]⟩ 0 (by norm_num)).1).1,
   ((wrap_heap_copies ⟨[[200]]⟩ 0 (by norm_num)).2).1⟩
